import Mathlib

/-!
Verification of the jxls migration tool (`jxls_migration_tool.py`).

Shallow embedding conventions:
* Python strings are modelled as `List Char` (`Str`); cell values of a
  spreadsheet are modelled as strings, with `[]` standing for an empty /
  unpopulated cell (Python falsy value).
* The Python `set` of row indices is modelled as `Finset Nat`.
* Fallible lookups returning the `-1` / `None` sentinels are modelled
  with `Option`.
* Regular-expression matching is embedded by deterministic maximal-munch
  matchers: every character class used by the source
  (`[^"\x27]*`, `[^}]+`, `\s*`, `\s+`) is followed in its pattern by a
  character excluded from the class, so greedy matching with no
  backtracking is exactly equivalent to Python `re` semantics, and
  `re.search` is the leftmost position where the matcher succeeds.
-/

abbrev Str := List Char

/-- Python `\s` / `str.strip` whitespace (ASCII range, as used by the tool). -/
def isPySpace (c : Char) : Bool :=
  c = ' ' || c = '\t' || c = '\n' || c = '\r' || c = Char.ofNat 11 || c = Char.ofNat 12

/-- Python `str.lower`, character-wise (ASCII inputs in this tool). -/
def lowerStr (s : Str) : Str := s.map Char.toLower

/-- Python `str.strip()`: drop leading and trailing whitespace. -/
def pyStrip (s : Str) : Str :=
  ((s.dropWhile isPySpace).reverse.dropWhile isPySpace).reverse

/-- Python `needle in hay` substring test. -/
def containsSub (hay needle : Str) : Prop := needle <:+: hay

instance (hay needle : Str) : Decidable (containsSub hay needle) :=
  List.decidableInfix needle hay

/-- Python `value.startswith("/")`. -/
def startsWithSlash (s : Str) : Bool :=
  match s with
  | '/' :: _ => true
  | _ => false

/-- Decimal rendering of a natural number, as Python `str(int)` / f-strings. -/
def natToStr (n : Nat) : Str := (Nat.repr n).data

/-- Opening brace character (written via its code point). -/
def lbrace : Char := Char.ofNat 123

/-- Closing brace character (written via its code point). -/
def rbrace : Char := Char.ofNat 125

/-- Fuel-driven base-26 letter expansion (the fuel argument only serves
structural termination; `n` itself is always enough fuel). -/
def colLetterAux : Nat → Nat → Str
  | 0, _ => []
  | fuel + 1, n =>
    if n = 0 then []
    else if n ≤ 26 then [Char.ofNat (64 + n)]
    else colLetterAux fuel ((n - 1) / 26) ++ [Char.ofNat (64 + ((n - 1) % 26 + 1))]

/-- Embeds openpyxl `get_column_letter`: 1-based column index to letters. -/
def colLetter (n : Nat) : Str := colLetterAux n n

/-! ## Format sniffer (`detect_excel_format`, source lines 218-252)

A file is modelled by the observations the sniffer makes of it: its
header bytes, whether `load_workbook` succeeds on it, and whether opening
or reading it raises an I/O exception. -/

/-- OLE2 magic bytes `D0 CF 11 E0 A1 B1 1A E1` checked by the sniffer. -/
def xlsMagic : List Nat := [0xd0, 0xcf, 0x11, 0xe0, 0xa1, 0xb1, 0x1a, 0xe1]

/-- ZIP magic prefix `PK`. -/
def zipMagic : List Nat := [0x50, 0x4b]

/-- Excel format tags returned by the sniffer. -/
inductive XFormat
  | xls
  | xlsx
deriving DecidableEq, Repr

/-- Abstraction of a file as seen by `detect_excel_format`. -/
structure ExcelFile where
  header : List Nat
  opensAsXlsx : Bool
  readFails : Bool

/-- Embeds `detect_excel_format`: header sniffing with openpyxl probe;
`none` models the Python `None` return (including the catch-all branch
for I/O exceptions). -/
def detect_excel_format (f : ExcelFile) : Option XFormat :=
  if f.readFails then none
  else if f.header.take 8 = xlsMagic then some .xls
  else if f.header.take 2 = zipMagic then
    (if f.opensAsXlsx then some .xlsx else some .xls)
  else none

/-! ## Regex components

Each Python pattern used by the tool is embedded as a deterministic
anchored matcher; `reSearch` tries it at every position left to right,
exactly as `re.search`. -/

/-- Single closing-quote character class member test (`["\x27]`). -/
def squote : Char := Char.ofNat 39

/-- Quote character test for the class `["\x27]`. -/
def isQuote (c : Char) : Bool := c = '"' || c = squote

/-- Eats a case-sensitive literal. -/
def eatLit : Str → Str → Option Str
  | [], s => some s
  | _ :: _, [] => none
  | c :: cs, d :: ds => if c = d then eatLit cs ds else none

/-- Eats a literal under `re.IGNORECASE`. -/
def eatLitCI : Str → Str → Option Str
  | [], s => some s
  | _ :: _, [] => none
  | c :: cs, d :: ds => if c.toLower = d.toLower then eatLitCI cs ds else none

/-- Eats a single expected character. -/
def eatChar (c : Char) : Str → Option Str
  | d :: ds => if d = c then some ds else none
  | [] => none

/-- Eats `\s+` (one or more whitespace, maximal munch). -/
def eatWs1 : Str → Option Str
  | [] => none
  | c :: cs => if isPySpace c then some (cs.dropWhile isPySpace) else none

/-- Eats `["\x27]`. -/
def eatQuote : Str → Option Str
  | c :: cs => if isQuote c then some cs else none
  | [] => none

/-- Eats `\s*=\s*["\x27]([^"\x27]*)["\x27]`, returning the capture and the rest. -/
def eatEqQuoted (s : Str) : Option (Str × Str) := do
  let s1 ← eatChar '=' (s.dropWhile isPySpace)
  let s2 ← eatQuote (s1.dropWhile isPySpace)
  let cap := s2.takeWhile (fun c => !isQuote c)
  let s3 ← eatQuote (s2.dropWhile (fun c => !isQuote c))
  pure (cap, s3)

/-- Leftmost search: tries the anchored matcher at each position, as
`re.search`. -/
def reSearch (m : Str → Option α) : Str → Option α
  | [] => m []
  | c :: cs =>
    match m (c :: cs) with
    | some r => some r
    | none => reSearch m cs

/-- Anchored matcher for
`jx:forEach\s+items\s*=\s*["\x27]([^"\x27]*)["\x27]\s+var\s*=\s*["\x27]([^"\x27]*)["\x27]`
(tag-attribute style, pattern 1 of `ForEachCommand.parse`). -/
def forEachTagAt (s : Str) : Option (Str × Str) := do
  let s ← eatLitCI "jx:forEach".toList s
  let s ← eatWs1 s
  let s ← eatLitCI "items".toList s
  let (i, s) ← eatEqQuoted s
  let s ← eatWs1 s
  let s ← eatLitCI "var".toList s
  let (v, _) ← eatEqQuoted s
  pure (i, v)

/-- Anchored matcher for
`jx:forEach\s*\(\s*items\s*=\s*["\x27]([^"\x27]*)["\x27]\s*,\s*var\s*=\s*["\x27]([^"\x27]*)["\x27]`
(call style, pattern 2 of `ForEachCommand.parse`). -/
def forEachCallAt (s : Str) : Option (Str × Str) := do
  let s ← eatLitCI "jx:forEach".toList s
  let s ← eatChar '(' (s.dropWhile isPySpace)
  let s ← eatLitCI "items".toList (s.dropWhile isPySpace)
  let (i, s) ← eatEqQuoted s
  let s ← eatChar ',' (s.dropWhile isPySpace)
  let s ← eatLitCI "var".toList (s.dropWhile isPySpace)
  let (v, _) ← eatEqQuoted s
  pure (i, v)

/-- Anchored matcher for an optional-parameter pattern
`{param}\s*=\s*["\x27]([^"\x27]*)["\x27]`. -/
def optParamAt (name : Str) (s : Str) : Option Str := do
  let s ← eatLitCI name s
  let (v, _) ← eatEqQuoted s
  pure v

/-- Eats the regex alternation `(?:test|condition)`; the two literals can
never match at the same position, so first-alternative preference is
deterministic. -/
def eatTestOrCond (s : Str) : Option Str :=
  match eatLitCI "test".toList s with
  | some r => some r
  | none => eatLitCI "condition".toList s

/-- Anchored matcher for `jx:if\s*\(\s*(?:test|condition)\s*=\s*["\x27]([^"\x27]*)["\x27]`
(pattern 1 of `IfCommand.parse`). -/
def ifCallAt (s : Str) : Option Str := do
  let s ← eatLitCI "jx:if".toList s
  let s ← eatChar '(' (s.dropWhile isPySpace)
  let s ← eatTestOrCond (s.dropWhile isPySpace)
  let (c, _) ← eatEqQuoted s
  pure c

/-- Anchored matcher for `jx:if\s+(?:test|condition)\s*=\s*["\x27]([^"\x27]*)["\x27]`
(pattern 2 of `IfCommand.parse`). -/
def ifTagAt (s : Str) : Option Str := do
  let s ← eatLitCI "jx:if".toList s
  let s ← eatWs1 s
  let s ← eatTestOrCond s
  let (c, _) ← eatEqQuoted s
  pure c

/-- Anchored matcher for `jx:area\s*\(\s*lastCell\s*=\s*["\x27]([^"\x27]*)["\x27]\s*\)`
(pattern 1 of `AreaCommand.parse`). -/
def areaCallAt (s : Str) : Option Str := do
  let s ← eatLitCI "jx:area".toList s
  let s ← eatChar '(' (s.dropWhile isPySpace)
  let s ← eatLitCI "lastCell".toList (s.dropWhile isPySpace)
  let (v, s) ← eatEqQuoted s
  let _ ← eatChar ')' (s.dropWhile isPySpace)
  pure v

/-- Anchored matcher for `jx:area\s+lastCell\s*=\s*["\x27]([^"\x27]*)["\x27]`
(pattern 2 of `AreaCommand.parse`). -/
def areaTagAt (s : Str) : Option Str := do
  let s ← eatLitCI "jx:area".toList s
  let s ← eatWs1 s
  let s ← eatLitCI "lastCell".toList s
  let (v, _) ← eatEqQuoted s
  pure v

/-- Anchored matcher for `jx:multiSheet\s*\(\s*data\s*=\s*["\x27]([^"\x27]*)["\x27]`
(pattern 1 of `MultiSheetCommand.parse`). -/
def multiSheetCallAt (s : Str) : Option Str := do
  let s ← eatLitCI "jx:multiSheet".toList s
  let s ← eatChar '(' (s.dropWhile isPySpace)
  let s ← eatLitCI "data".toList (s.dropWhile isPySpace)
  let (v, _) ← eatEqQuoted s
  pure v

/-- Anchored matcher for `jx:multiSheet\s+data\s*=\s*["\x27]([^"\x27]*)["\x27]`
(pattern 2 of `MultiSheetCommand.parse`). -/
def multiSheetTagAt (s : Str) : Option Str := do
  let s ← eatLitCI "jx:multiSheet".toList s
  let s ← eatWs1 s
  let s ← eatLitCI "data".toList s
  let (v, _) ← eatEqQuoted s
  pure v

/-- Anchored matcher for `<jx:out\s+select="([^"]+)"\s*/?>`
(pattern 1 of `OutCommand.parse`, IGNORECASE). -/
def outTagAt (s : Str) : Option Str := do
  let s ← eatLitCI "<jx:out".toList s
  let s ← eatWs1 s
  let s ← eatLitCI "select=\"".toList s
  let cap := s.takeWhile (fun c => c != '"')
  if cap.isEmpty then none
  else do
    let s ← eatChar '"' (s.drop cap.length)
    let s2 := s.dropWhile isPySpace
    match eatChar '/' s2 with
    | some s3 => do
      let _ ← eatChar '>' s3
      pure cap
    | none => do
      let _ ← eatChar '>' s2
      pure cap

/-- Anchored matcher for `jx:out\s*\(\s*select\s*=\s*["\x27]([^"\x27]*)["\x27]\s*\)`
(pattern 2 of `OutCommand.parse`). -/
def outCallAt (s : Str) : Option Str := do
  let s ← eatLitCI "jx:out".toList s
  let s ← eatChar '(' (s.dropWhile isPySpace)
  let s ← eatLitCI "select".toList (s.dropWhile isPySpace)
  let (v, s) ← eatEqQuoted s
  let _ ← eatChar ')' (s.dropWhile isPySpace)
  pure v

/-- Anchored matcher for the copy-pass substitution pattern
`<jx:out\s+select="([^"]+)"\s*/>` (case-sensitive, source line 1986);
returns the capture and the remainder after the match. -/
def outSubAt (s : Str) : Option (Str × Str) := do
  let s ← eatLit "<jx:out".toList s
  let s ← eatWs1 s
  let s ← eatLit "select=\"".toList s
  let cap := s.takeWhile (fun c => c != '"')
  if cap.isEmpty then none
  else do
    let s ← eatChar '"' (s.drop cap.length)
    let s ← eatLit "/>".toList (s.dropWhile isPySpace)
    pure (cap, s)

/-- Anchored matcher for `\$\{([^}]+)\}` (the `${...}` unwrapping in
`ForEachCommand.parse`); returns the capture and the remainder. -/
def dollarAt (s : Str) : Option (Str × Str) := do
  let s ← eatChar '$' s
  let s ← eatChar lbrace s
  let cap := s.takeWhile (fun c => c != rbrace)
  if cap.isEmpty then none
  else do
    let s ← eatChar rbrace (s.drop cap.length)
    pure (cap, s)

/-- Fuel-driven engine for `re.sub`: replaces each non-overlapping
leftmost match, scanning left to right. -/
def reSubAux (m : Str → Option (Str × Str)) (rep : Str → Str) : Nat → Str → Str
  | 0, s => s
  | _ + 1, [] => []
  | fuel + 1, c :: cs =>
    match m (c :: cs) with
    | some (cap, rest) => rep cap ++ reSubAux m rep fuel rest
    | none => c :: reSubAux m rep fuel cs

/-- Embeds `re.sub` for the given anchored matcher and replacement. -/
def reSub (m : Str → Option (Str × Str)) (rep : Str → Str) (s : Str) : Str :=
  reSubAux m rep s.length s

/-- Embeds `re.sub(r'\$\{([^}]+)\}', r'\1', s)`: strips `${...}` wrappers. -/
def stripDollar (s : Str) : Str := reSub dollarAt (fun cap => cap) s

/-- Embeds the inline `jx:out` substitution of the copy pass (source
lines 1984-1990). -/
def jxOutSub (s : Str) : Str :=
  reSub outSubAt (fun cap => '$' :: lbrace :: (cap ++ [rbrace])) s

/-- Removes a surrounding `<`...`>` pair if present (start of every
`parse` method). -/
def cleanTag (s : Str) : Str :=
  if s.head? = some '<' ∧ s.getLast? = some '>' then (s.drop 1).dropLast else s

/-! ## Directive parameter parsing and rendering (the Directive Model) -/

/-- Parameter mapping of `ForEachCommand` (absent key = `none`). -/
structure ForEachParams where
  items : Option Str
  var : Option Str
  varStatus : Option Str
  direction : Option Str
  multisheet : Option Str
  select : Option Str
  groupBy : Option Str
  groupOrder : Option Str
deriving DecidableEq, Repr

/-- First-match-wins over the two `forEach` patterns (tag style first). -/
def forEachBaseMatch (clean : Str) : Option (Str × Str) :=
  match reSearch forEachTagAt clean with
  | some r => some r
  | none => reSearch forEachCallAt clean

/-- Search for one optional parameter of a directive. -/
def findOptParam (name : String) (clean : Str) : Option Str :=
  reSearch (optParamAt name.toList) clean

/-- Embeds `ForEachCommand.parse`: base match sets `items`/`var` with the
`${...}` wrapper stripped; the optional parameters are captured verbatim. -/
def forEachParse (raw : Str) : ForEachParams :=
  let clean := cleanTag (pyStrip raw)
  let base := forEachBaseMatch clean
  { items := base.map (fun r => stripDollar r.1)
    var := base.map (fun r => stripDollar r.2)
    varStatus := findOptParam "varStatus" clean
    direction := findOptParam "direction" clean
    multisheet := findOptParam "multisheet" clean
    select := findOptParam "select" clean
    groupBy := findOptParam "groupBy" clean
    groupOrder := findOptParam "groupOrder" clean }

/-- Renders one optional parameter segment, `' {param}="{value}"'`. -/
def optRender (name : String) (v : Option Str) : Str :=
  match v with
  | some w => ' ' :: (name.toList ++ "=\"".toList ++ w ++ ['"'])
  | none => []

/-- Embeds `ForEachCommand.to_jx_each`. -/
def to_jx_each (p : ForEachParams) (lastCell : Str) : Str :=
  "jx:each(items=\"".toList ++ p.items.getD [] ++ "\" var=\"".toList ++ p.var.getD []
    ++ "\" lastCell=\"".toList ++ lastCell ++ "\"".toList
    ++ optRender "direction" p.direction
    ++ optRender "multisheet" p.multisheet
    ++ optRender "select" p.select
    ++ optRender "groupBy" p.groupBy
    ++ optRender "groupOrder" p.groupOrder
    ++ (match p.varStatus with
        | some _ => " # 注意: varStatus需要在Java代码中手动实现".toList
        | none => [])
    ++ [')']

/-- Parameter mapping of `IfCommand`. -/
structure IfParams where
  condition : Option Str
  direction : Option Str
  multisheet : Option Str
  lastCell : Option Str
  areas : Option Str
deriving DecidableEq, Repr

/-- First-match-wins over the two `jx:if` patterns (call style first). -/
def ifBaseMatch (clean : Str) : Option Str :=
  match reSearch ifCallAt clean with
  | some r => some r
  | none => reSearch ifTagAt clean

/-- Embeds `IfCommand.parse`: the condition and all optional parameters
are captured verbatim (no `${...}` stripping). -/
def ifParse (raw : Str) : IfParams :=
  let clean := cleanTag (pyStrip raw)
  { condition := ifBaseMatch clean
    direction := findOptParam "direction" clean
    multisheet := findOptParam "multisheet" clean
    lastCell := findOptParam "lastCell" clean
    areas := findOptParam "areas" clean }

/-- Embeds `IfCommand.to_jx_if_v2`. -/
def to_jx_if_v2 (p : IfParams) (lastCell : Str) : Str :=
  "jx:if(condition=\"".toList ++ p.condition.getD []
    ++ "\" lastCell=\"".toList ++ lastCell ++ "\"".toList
    ++ optRender "direction" p.direction
    ++ optRender "multisheet" p.multisheet
    ++ optRender "areas" p.areas
    ++ [')']

/-- Parameter mapping of `AreaCommand`. -/
structure AreaParams where
  lastCell : Option Str
deriving DecidableEq, Repr

/-- Embeds `AreaCommand.parse` (call-style pattern first). -/
def areaParse (raw : Str) : AreaParams :=
  let clean := cleanTag (pyStrip raw)
  { lastCell :=
      match reSearch areaCallAt clean with
      | some r => some r
      | none => reSearch areaTagAt clean }

/-- Embeds `AreaCommand.to_jx_area_v2`; `override` models the optional
`last_cell` argument (Python `last_cell or self.params.get(...)` treats
an empty override as absent). -/
def to_jx_area_v2 (p : AreaParams) (override : Option Str) : Str :=
  let actual :=
    match override with
    | some l => if l = [] then p.lastCell.getD [] else l
    | none => p.lastCell.getD []
  "jx:area(lastCell=\"".toList ++ actual ++ "\")".toList

/-- Embeds `MultiSheetCommand.parse` (call-style pattern first). -/
def multiSheetParse (raw : Str) : Option Str :=
  let clean := cleanTag (pyStrip raw)
  match reSearch multiSheetCallAt clean with
  | some r => some r
  | none => reSearch multiSheetTagAt clean

/-- Embeds `MultiSheetCommand.to_jx_multi_sheet_v2`. -/
def to_jx_multi_sheet_v2 (data : Option Str) : Str :=
  "jx:multiSheet(data=\"".toList ++ data.getD [] ++ "\")".toList

/-- Embeds `OutCommand.parse` (tag pattern first, call pattern second). -/
def outParse (raw : Str) : Option Str :=
  let clean := pyStrip raw
  match reSearch outTagAt clean with
  | some r => some r
  | none => reSearch outCallAt clean

/-- Embeds `OutCommand.to_expression`: `${select}`. -/
def to_expression (select : Option Str) : Str :=
  '$' :: lbrace :: (select.getD [] ++ [rbrace])

/-! ## Sheet model and directive scanner

A sheet is a grid of string-valued cells; `[]` is an empty cell and any
out-of-range access reads as empty, matching xlrd's blank-cell padding.
`ncols` mirrors the sheet-wide `ncols` property of xlrd. The sheet name
carried by `CommandLocation` plays no role in the modelled logic and is
omitted. -/

structure Sheet where
  cells : List (List Str)
  ncols : Nat

/-- Row count (`xls_sheet.nrows`). -/
def Sheet.nrows (s : Sheet) : Nat := s.cells.length

/-- Cell access (`xls_sheet.cell(r, c).value` as a string). -/
def cellVal (s : Sheet) (r c : Nat) : Str := (s.cells.getD r []).getD c []

/-- Embeds `CommandLocation` (row, col), zero-based. -/
structure CommandLocation where
  row : Nat
  col : Nat
deriving DecidableEq, Repr

/-- The directive taxonomy (`JxlsCommand` subclasses), as a tagged variant
carrying the source location and stripped raw text. -/
inductive JxlsCommand
  | areaCmd (loc : CommandLocation) (raw : Str)
  | forEachCmd (loc : CommandLocation) (raw : Str)
  | ifCmd (loc : CommandLocation) (raw : Str)
  | multiSheetCmd (loc : CommandLocation) (raw : Str)
  | outCmd (loc : CommandLocation) (raw : Str)
deriving DecidableEq, Repr

/-- Embeds the classification chain of `detect_jxls_commands` (source
lines 1746-1774): first-match-wins, case-insensitive containment, with
the leading-`/` exclusion on every branch except `out`. -/
def classifyCell (loc : CommandLocation) (v : Str) : Option JxlsCommand :=
  let lv := lowerStr v
  if containsSub lv "jx:area".toList ∧ startsWithSlash v = false then
    some (.areaCmd loc v)
  else if containsSub lv "jx:foreach".toList ∧ startsWithSlash v = false then
    some (.forEachCmd loc v)
  else if containsSub lv "jx:if".toList ∧ startsWithSlash v = false then
    some (.ifCmd loc v)
  else if containsSub lv "jx:multisheet".toList ∧ startsWithSlash v = false then
    some (.multiSheetCmd loc v)
  else if containsSub lv "<jx:out".toList ∨ containsSub lv "jx:out(".toList then
    some (.outCmd loc v)
  else none

/-- Embeds `detect_jxls_commands`: row-major scan of all populated cells. -/
def detect_jxls_commands (s : Sheet) : List JxlsCommand :=
  ((List.range s.nrows).flatMap fun r => (List.range s.ncols).map fun c => (r, c)).filterMap
    fun rc =>
      let v := cellVal s rc.1 rc.2
      if v = [] then none else classifyCell ⟨rc.1, rc.2⟩ (pyStrip v)

/-! ## Rewrite-engine helpers -/

/-- Embeds `find_end_tag`: first row after `startRow` holding a cell whose
text contains `endTag` (case-sensitive, unstripped). -/
def find_end_tag (s : Sheet) (startRow : Nat) (endTag : Str) : Option Nat :=
  (List.range' (startRow + 1) (s.nrows - (startRow + 1))).find?
    fun r => (List.range s.ncols).any fun c => decide (containsSub (cellVal s r c) endTag)

/-- Embeds `find_first_data_column`: first column of the row whose cell is
truthy with non-blank strip; `none` models the `-1` sentinel. -/
def find_first_data_column (s : Sheet) (rowIdx : Nat) : Option Nat :=
  (List.range s.ncols).find?
    fun c => decide (cellVal s rowIdx c ≠ [] ∧ pyStrip (cellVal s rowIdx c) ≠ [])

/-- Embeds `find_last_data_column`: last truthy column of the row, `0`
when the row is empty (the initial accumulator). -/
def find_last_data_column (s : Sheet) (rowIdx : Nat) : Nat :=
  (List.range s.ncols).foldl (fun acc c => if cellVal s rowIdx c ≠ [] then c else acc) 0

/-- Embeds the running adjustment
`row - len([r for r in rows_to_delete if r < row])`. -/
def adjustedRow (row : Nat) (del : Finset Nat) : Nat :=
  row - (del.filter (fun r => r < row)).card

/-- State threaded through the per-command loop of
`process_commands_and_migrate_data`. -/
structure RwState where
  rowsToDelete : Finset Nat
  comments : List (Nat × Nat × Str)
  areaCommands : List JxlsCommand
  converted : Nat

/-- Initial rewrite state. -/
def initRwState : RwState := ⟨∅, [], [], 0⟩

/-- Embeds one iteration of the command loop of
`process_commands_and_migrate_data` (xls/openpyxl path, source lines
1849-1956). An `OutCommand` matches no branch there and leaves the state
unchanged. -/
def processCmd (s : Sheet) (st : RwState) (cmd : JxlsCommand) : RwState :=
  match cmd with
  | .forEachCmd loc raw =>
    match find_end_tag s loc.row "/jx:forEach".toList with
    | none => st
    | some endRow =>
      let del := insert endRow (insert loc.row st.rowsToDelete)
      let dataRow := loc.row + 1
      let lastCol := find_last_data_column s dataRow
      let adj := adjustedRow dataRow del
      let lastCell := colLetter (lastCol + 1) ++ natToStr (adj + 1)
      let text := to_jx_each (forEachParse raw) lastCell
      let anchor := (find_first_data_column s dataRow).getD loc.col
      { st with rowsToDelete := del,
                comments := st.comments ++ [(adj, anchor, text)],
                converted := st.converted + 1 }
  | .ifCmd loc raw =>
    match find_end_tag s loc.row "/jx:if".toList with
    | none => st
    | some endRow =>
      let del := insert endRow (insert loc.row st.rowsToDelete)
      let dataRow := loc.row + 1
      let lastCol := find_last_data_column s dataRow
      let adj := adjustedRow dataRow del
      let lastCell := colLetter (lastCol + 1) ++ natToStr (adj + 1)
      let text := to_jx_if_v2 (ifParse raw) lastCell
      let anchor := (find_first_data_column s dataRow).getD loc.col
      { st with rowsToDelete := del,
                comments := st.comments ++ [(adj, anchor, text)],
                converted := st.converted + 1 }
  | .areaCmd loc raw =>
    let text := to_jx_area_v2 (areaParse raw) none
    let adj := adjustedRow loc.row st.rowsToDelete
    { st with areaCommands := st.areaCommands ++ [cmd],
              comments := st.comments ++ [(adj, loc.col, text)],
              converted := st.converted + 1 }
  | .multiSheetCmd loc raw =>
    let text := to_jx_multi_sheet_v2 (multiSheetParse raw)
    { st with comments := st.comments ++ [(loc.row, loc.col, text)],
              rowsToDelete := insert loc.row st.rowsToDelete,
              converted := st.converted + 1 }
  | .outCmd _ _ => st

/-- The command loop (a left fold over the scan-ordered command list). -/
def processCmds (s : Sheet) (st : RwState) (cmds : List JxlsCommand) : RwState :=
  cmds.foldl (processCmd s) st

/-- Original indices of the rows the copy pass keeps, in order. -/
def keptRows (s : Sheet) (del : Finset Nat) : List Nat :=
  (List.range s.nrows).filter fun r => decide (r ∉ del)

/-- Embeds the cell-copy pass: kept rows in order, each cell passed
through the inline `jx:out` substitution. -/
def copyRows (s : Sheet) (del : Finset Nat) : List (List Str) :=
  (keptRows s del).map fun r => (List.range s.ncols).map fun c => jxOutSub (cellVal s r c)

/-- Embeds the `row_mapping` loop: old row index to new (1-based) row
index, skipping deleted rows, counter starting at 1. -/
def buildRowMappingAux (del : Finset Nat) : List Nat → Nat → List (Nat × Nat)
  | [], _ => []
  | r :: rs, newRow =>
    if r ∈ del then buildRowMappingAux del rs newRow
    else (r, newRow) :: buildRowMappingAux del rs (newRow + 1)

/-- The `row_mapping` built during the copy pass. -/
def buildRowMapping (s : Sheet) (del : Finset Nat) : List (Nat × Nat) :=
  buildRowMappingAux del (List.range s.nrows) 1

/-- Embeds the `last_data_col` scan of the auto-area block (source lines
2042-2047): for each column, the row loop breaks at the first kept
populated cell, so a column contributes iff it has one. -/
def autoAreaLastCol (s : Sheet) (del : Finset Nat) : Nat :=
  (List.range s.ncols).foldl
    (fun acc c =>
      if (List.range s.nrows).any (fun r => decide (r ∉ del) && decide (cellVal s r c ≠ []))
      then max acc c else acc)
    0

/-- Aggregate result of `process_commands_and_migrate_data` restricted to
the observable data the claims are about. -/
structure MigrateOutput where
  rowsToDelete : Finset Nat
  newRows : List (List Str)
  rowMapping : List (Nat × Nat)
  comments : List (Nat × Nat × Str)
  areaCommands : List JxlsCommand

/-- Embeds `process_commands_and_migrate_data` (xls/openpyxl path):
command loop, copy pass, and the conditional auto-generated area
annotation appended at (0, 0). -/
def process_commands_and_migrate_data (cmds : List JxlsCommand) (s : Sheet) :
    MigrateOutput :=
  let st := processCmds s initRwState cmds
  let del := st.rowsToDelete
  let keptCount := (keptRows s del).length
  let lastCol := autoAreaLastCol s del
  let comments :=
    if st.areaCommands = [] ∧ (del ≠ ∅ ∨ st.comments ≠ []) then
      if keptCount > 0 ∧ lastCol > 0 then
        st.comments ++
          [(0, 0, "jx:area(lastCell=\"".toList ++ colLetter (lastCol + 1)
              ++ natToStr keptCount ++ "\")".toList)]
      else st.comments
    else st.comments
  { rowsToDelete := del
    newRows := copyRows s del
    rowMapping := buildRowMapping s del
    comments := comments
    areaCommands := st.areaCommands }

/-! ## Migration orchestrator (`migrate_file`, source lines 1234-1310)

One handler run (`migrate_xls_file` / `migrate_xlsx_file`) is abstracted
by its observable outcome: the success flag and error field of the result
dictionary it returns. The fallback attempt may additionally raise (the
handlers catch their own exceptions, so the raise branch models failures
outside their `try` blocks); `migrate_file` itself never raises. -/

/-- Outcome of one format handler run. -/
structure AttemptResult where
  success : Bool
  error : Option Str

/-- How the fallback (second) attempt ends: normal return or a raised
exception with its type name and message. -/
inductive FallbackOutcome
  | returns (a : AttemptResult)
  | raisesExn (exnType : Str) (exnMsg : Str)

/-- The fields of the `migrate_file` result dictionary that the claims
observe. -/
structure MigResult where
  success : Bool
  error : Option Str
  attempts : List Str

/-- Python f-string rendering of a possibly-`None` string value. -/
def pyShowOptStr : Option Str → Str
  | none => "None".toList
  | some s => s

/-- Format tag rendered into the first attempt message. -/
def fmtName : XFormat → Str
  | .xls => "xls".toList
  | .xlsx => "xlsx".toList

/-- Embeds `migrate_file`: primary attempt under the detected format;
on failure the result is reset (keeping the trail, with `error` back to
`None`), a fallback entry is appended, and the opposite handler runs; if
that raises, the composite error is built from the reset (`None`) first
error and the exception's type name, exactly as the source f-string does. -/
def migrate_file (fmt : XFormat) (primary : AttemptResult) (fb : FallbackOutcome) :
    MigResult :=
  let attempts0 := ["第一次尝试: 检测格式为 ".toList ++ fmtName fmt]
  if primary.success then
    { success := true, error := primary.error, attempts := attempts0 }
  else
    let attempts1 := attempts0 ++ ["第一次尝试失败: ".toList ++ pyShowOptStr primary.error]
    let secondMsg :=
      match fmt with
      | .xlsx => "第二次尝试: 使用XLS处理器".toList
      | .xls => "第二次尝试: 使用XLSX处理器".toList
    let attempts2 := attempts1 ++ [secondMsg]
    match fb with
    | .returns a => { success := a.success, error := a.error, attempts := attempts2 }
    | .raisesExn ty msg =>
      { success := false,
        error := some ("所有尝试都失败: 第一次错误=None, 第二次错误=".toList ++ ty),
        attempts := attempts2 ++ ["第二次尝试失败: ".toList ++ ty ++ ": ".toList ++ msg] }

/-! ## Concrete inputs used by counterexamples and witnesses -/

/-- The spec scenario sheet: forEach opener, one data row, closer. -/
def c1Sheet : Sheet :=
  ⟨[["<jx:forEach items=\"${list}\" var=\"item\">".toList],
    ["${item.name}".toList, "${item.price}".toList],
    ["/jx:forEach".toList]], 2⟩

/-- The spec scenario command list: the scanned forEach plus a final Area
directive at A1 with `lastCell="B3"`. -/
def c1Cmds : List JxlsCommand :=
  [.forEachCmd ⟨0, 0⟩ "<jx:forEach items=\"${list}\" var=\"item\">".toList,
   .areaCmd ⟨0, 0⟩ "jx:area(lastCell=\"B3\")".toList]

/-- Two forEach openers sharing one closing delimiter row. -/
def c2Sheet : Sheet :=
  ⟨[["<jx:forEach items=\"a\" var=\"x\">".toList],
    ["<jx:forEach items=\"b\" var=\"y\">".toList],
    ["${x.n}".toList],
    ["/jx:forEach".toList]], 1⟩

/-- A single-column forEach block: all populated data is in column A. -/
def c3Sheet : Sheet :=
  ⟨[["<jx:forEach items=\"a\" var=\"x\">".toList],
    ["data".toList],
    ["/jx:forEach".toList]], 1⟩

/-- A sheet with no directive text at all. -/
def c4Sheet : Sheet :=
  ⟨[["hello".toList, "world".toList],
    ["foo".toList, []]], 2⟩

/-- A forEach block whose opener sits in column C and whose data row is
entirely empty. -/
def c9Sheet : Sheet :=
  ⟨[[[], [], "<jx:forEach items=\"a\" var=\"x\">".toList],
    [],
    [[], [], "/jx:forEach".toList]], 3⟩

/-- A forEach block with no closing delimiter anywhere below. -/
def c6Sheet : Sheet :=
  ⟨[["<jx:forEach items=\"a\" var=\"x\">".toList],
    ["data".toList]], 1⟩

/-- Deletion set used by the row-mapping witness. -/
def c10Del : Finset Nat := insert 0 {2}

/-! ## Theorems -/

/-- C8: format detection never raises: the legacy 8-byte magic yields
`xls`; a ZIP prefix whose openpyxl open fails yields `xls`; any other
header yields `none`; and an I/O failure is caught and yields `none`. -/
theorem C8_detect_format_cases (f : ExcelFile) :
    (f.readFails = true → detect_excel_format f = none) ∧
    (f.readFails = false →
      (f.header.take 8 = xlsMagic → detect_excel_format f = some XFormat.xls) ∧
      (f.header.take 2 = zipMagic → f.opensAsXlsx = false →
        detect_excel_format f = some XFormat.xls) ∧
      (f.header.take 8 ≠ xlsMagic → f.header.take 2 ≠ zipMagic →
        detect_excel_format f = none)) := by
  constructor
  · intro h
    simp [detect_excel_format, h]
  · intro h
    refine ⟨fun hm => ?_, fun hz ho => ?_, fun hm hz => ?_⟩
    · simp [detect_excel_format, h, hm]
    · have hm : f.header.take 8 ≠ xlsMagic := by
        intro hc
        have h2 : f.header.take 2 = [0xd0, 0xcf] := by
          have h8 := congrArg (List.take 2) hc
          rw [List.take_take] at h8
          simpa [xlsMagic] using h8
        rw [hz] at h2
        simp [zipMagic] at h2
      simp [detect_excel_format, h, hm, hz, ho]
    · simp [detect_excel_format, h, hm, hz]

/-- Witness for C8 at concrete files: a magic-header file, a corrupt
ZIP file that fails to open, a garbage-header file, and an I/O failure. -/
theorem C8_detect_format_cases_witness :
    detect_excel_format ⟨xlsMagic, false, false⟩ = some XFormat.xls ∧
    detect_excel_format ⟨[0x50, 0x4b, 3, 4], false, false⟩ = some XFormat.xls ∧
    detect_excel_format ⟨[0, 1, 2], true, false⟩ = none ∧
    detect_excel_format ⟨xlsMagic, true, true⟩ = none := by
  refine ⟨?_, ?_, ?_, ?_⟩
  · exact ((C8_detect_format_cases _).2 rfl).1 (by decide)
  · exact ((C8_detect_format_cases _).2 rfl).2.1 (by decide) rfl
  · exact ((C8_detect_format_cases _).2 rfl).2.2 (by decide) (by decide)
  · exact (C8_detect_format_cases _).1 rfl

example :
    forEachParse "<jx:forEach items=\"${list}\" var=\"item\">".toList =
      { items := some "list".toList, var := some "item".toList,
        varStatus := none, direction := none, multisheet := none,
        select := none, groupBy := none, groupOrder := none } := by decide

example :
    to_jx_each (forEachParse "<jx:forEach items=\"${list}\" var=\"item\">".toList)
        "B1".toList =
      "jx:each(items=\"list\" var=\"item\" lastCell=\"B1\")".toList := by decide

example :
    jxOutSub "a <jx:out select=\"user.email\"/> b".toList =
      ("a $".toList ++ [lbrace] ++ "user.email".toList ++ [rbrace] ++ " b".toList) := by
  decide

example :
    areaParse "jx:area(lastCell=\"B3\")".toList = { lastCell := some "B3".toList } := by
  decide

example :
    detect_jxls_commands c1Sheet =
      [.forEachCmd ⟨0, 0⟩ "<jx:forEach items=\"${list}\" var=\"item\">".toList] := by
  decide

/-- C1 counterexample: on the scenario input (the three listed rows, the
scanned forEach command, and a final Area directive located at A1 with
`lastCell="B3"`), the rewrite keeps 1 row, not 2, and the preserved Area
comment carries the original `lastCell="B3"` rather than an adjusted one. -/
theorem C1_counterexample :
    (process_commands_and_migrate_data c1Cmds c1Sheet).newRows.length = 1 ∧
    (process_commands_and_migrate_data c1Cmds c1Sheet).newRows.length ≠ 2 ∧
    (process_commands_and_migrate_data c1Cmds c1Sheet).comments.getD 1 (0, 0, []) =
      (0, 0, "jx:area(lastCell=\"B3\")".toList) := by
  decide

/-- C1 (amended): on the scenario input the rewrite keeps exactly 1 row
(the data row, which becomes output row 1), queues the forEach comment at
(adjusted row 0, column A) with text
`jx:each(items="list" var="item" lastCell="B1")`, and queues the Area
comment at A1 with its original, unadjusted `lastCell="B3"`. -/
theorem C1_scenario :
    (process_commands_and_migrate_data c1Cmds c1Sheet).newRows.length = 1 ∧
    (process_commands_and_migrate_data c1Cmds c1Sheet).comments =
      [(0, 0, "jx:each(items=\"list\" var=\"item\" lastCell=\"B1\")".toList),
       (0, 0, "jx:area(lastCell=\"B3\")".toList)] := by
  decide

/-- C7 counterexample: a primary failure followed by a successful fallback
leaves three entries in the attempt trail, not two. -/
theorem C7_counterexample :
    (migrate_file XFormat.xlsx ⟨false, some "boom".toList⟩
        (FallbackOutcome.returns ⟨true, none⟩)).attempts.length = 3 ∧
    (migrate_file XFormat.xlsx ⟨false, some "boom".toList⟩
        (FallbackOutcome.returns ⟨true, none⟩)).attempts.length ≠ 2 := by
  decide

/-- C7 (amended): when the primary attempt fails, the attempt trail has
exactly three entries if the fallback returns (the detection entry, the
primary-failure entry, and the entry denoting the fallback format, which
is the third, not the second) and four if it raises; the success flag and
error reflect the fallback outcome only; when the fallback raises, the
error is the composite message built from the reset (`None`) first error
and the exception type name. -/
theorem C7_fallback_attempt_trail (fmt : XFormat) (primary : AttemptResult)
    (fb : FallbackOutcome) (hfail : primary.success = false) :
    (∀ a, fb = FallbackOutcome.returns a →
        (migrate_file fmt primary fb).attempts.length = 3 ∧
        (migrate_file fmt primary fb).success = a.success ∧
        (migrate_file fmt primary fb).error = a.error) ∧
    (∀ ty msg, fb = FallbackOutcome.raisesExn ty msg →
        (migrate_file fmt primary fb).attempts.length = 4 ∧
        (migrate_file fmt primary fb).success = false ∧
        (migrate_file fmt primary fb).error =
          some ("所有尝试都失败: 第一次错误=None, 第二次错误=".toList ++ ty)) ∧
    (migrate_file fmt primary fb).attempts.getD 2 [] =
      (match fmt with
       | XFormat.xlsx => "第二次尝试: 使用XLS处理器".toList
       | XFormat.xls => "第二次尝试: 使用XLSX处理器".toList) := by
  refine ⟨fun a ha => ?_, fun ty msg hm => ?_, ?_⟩
  · subst ha
    cases fmt <;> simp [migrate_file, hfail]
  · subst hm
    cases fmt <;> simp [migrate_file, hfail]
  · cases fb <;> cases fmt <;> simp [migrate_file, hfail]

/-- Witness for C7 at a concrete failing primary attempt and returning
fallback. -/
theorem C7_fallback_attempt_trail_witness :
    (migrate_file XFormat.xls ⟨false, some "E1".toList⟩
        (FallbackOutcome.returns ⟨false, some "E2".toList⟩)).attempts.length = 3 ∧
    (migrate_file XFormat.xls ⟨false, some "E1".toList⟩
        (FallbackOutcome.returns ⟨false, some "E2".toList⟩)).success = false ∧
    (migrate_file XFormat.xls ⟨false, some "E1".toList⟩
        (FallbackOutcome.returns ⟨false, some "E2".toList⟩)).error = some "E2".toList :=
  (C7_fallback_attempt_trail XFormat.xls ⟨false, some "E1".toList⟩
    (FallbackOutcome.returns ⟨false, some "E2".toList⟩) rfl).1 ⟨false, some "E2".toList⟩ rfl

/-- Structure of the row-mapping loop, generalized over the visited rows
and the running counter. -/
theorem buildRowMappingAux_spec (del : Finset Nat) :
    ∀ (l : List Nat) (k : Nat),
      (buildRowMappingAux del l k).map Prod.fst = l.filter (fun r => decide (r ∉ del)) ∧
      (buildRowMappingAux del l k).map Prod.snd =
        List.range' k (l.filter (fun r => decide (r ∉ del))).length ∧
      ∀ p ∈ buildRowMappingAux del l k, p.1 ∈ l ∧ p.1 ∉ del := by
  intro l
  induction l with
  | nil => intro k; simp [buildRowMappingAux]
  | cons r rs ih =>
    intro k
    by_cases hr : r ∈ del
    · have h0 := ih k
      simp only [buildRowMappingAux, if_pos hr]
      refine ⟨?_, ?_, ?_⟩
      · rw [h0.1, List.filter_cons_of_neg (by simpa using hr)]
      · rw [h0.2.1, List.filter_cons_of_neg (by simpa using hr)]
      · intro p hp
        exact ⟨List.mem_cons_of_mem _ (h0.2.2 p hp).1, (h0.2.2 p hp).2⟩
    · have h0 := ih (k + 1)
      simp only [buildRowMappingAux, if_neg hr]
      refine ⟨?_, ?_, ?_⟩
      · rw [List.map_cons, h0.1, List.filter_cons_of_pos (by simpa using hr)]
      · rw [List.map_cons, h0.2.1, List.filter_cons_of_pos (by simpa using hr),
          List.length_cons, List.range'_succ]
      · intro p hp
        rcases List.mem_cons.1 hp with h | h
        · subst h; exact ⟨List.mem_cons_self .., hr⟩
        · exact ⟨List.mem_cons_of_mem _ (h0.2.2 p h).1, (h0.2.2 p h).2⟩

/-- C10: the row mapping is a strictly increasing, gap-free enumeration:
its key list is exactly the kept rows (the original indices outside the
deletion set, in increasing order), its value list is the consecutive
integers `1..k` in that same order, and no deleted row appears in it. -/
theorem C10_row_mapping (s : Sheet) (del : Finset Nat) :
    (buildRowMapping s del).map Prod.fst = keptRows s del ∧
    (buildRowMapping s del).map Prod.snd = List.range' 1 (keptRows s del).length ∧
    List.Pairwise (· < ·) ((buildRowMapping s del).map Prod.fst) ∧
    List.Pairwise (· < ·) ((buildRowMapping s del).map Prod.snd) ∧
    ∀ p, p ∈ buildRowMapping s del → p.1 ∉ del := by
  have h := buildRowMappingAux_spec del (List.range s.nrows) 1
  unfold buildRowMapping keptRows
  refine ⟨h.1, ?_, ?_, ?_, fun p hp => (h.2.2 p hp).2⟩
  · rw [h.2.1]
  · rw [h.1]
    exact (List.pairwise_lt_range _).filter _
  · rw [h.2.1]
    exact List.pairwise_lt_range' ..

/-- Witness for C10 at a concrete sheet and deletion set: the pair
`(1, 1)` is in the mapping and its key is not a deleted row. -/
theorem C10_row_mapping_witness :
    ((1, 1) ∈ buildRowMapping c2Sheet c10Del) ∧ ((1 : Nat) ∉ c10Del) :=
  ⟨by decide, (C10_row_mapping c2Sheet c10Del).2.2.2.2 (1, 1) (by decide)⟩

/-- The rows marked for deletion below a row bound never exceed the bound. -/
theorem card_filter_lt_le (S : Finset Nat) (row : Nat) :
    (S.filter (fun r => r < row)).card ≤ row := by
  have hsub : S.filter (fun r => r < row) ⊆ Finset.range row := fun x hx =>
    Finset.mem_range.2 (Finset.mem_filter.1 hx).2
  simpa using Finset.card_le_card hsub

/-- Adding a marked row strictly above a position strictly decreases its
adjusted index. -/
theorem adjustedRow_strict_anti :
    ∀ (row : Nat) (S T : Finset Nat), S ⊆ T → ∀ r, r ∈ T → r ∉ S → r < row →
      adjustedRow row T < adjustedRow row S := by
  intro row S T hsub r hrT hrS hlt
  have hssub : S.filter (fun x => x < row) ⊂ T.filter (fun x => x < row) := by
    refine (Finset.ssubset_iff_of_subset (Finset.filter_subset_filter _ hsub)).2 ?_
    exact ⟨r, Finset.mem_filter.2 ⟨hrT, hlt⟩, fun hc => hrS (Finset.mem_filter.1 hc).1⟩
  have h1 : (S.filter (fun x => x < row)).card < (T.filter (fun x => x < row)).card :=
    Finset.card_lt_card hssub
  have h2 := card_filter_lt_le T row
  unfold adjustedRow
  omega

/-- C2 counterexample: two forEach blocks can share one closing-delimiter
row; the second matched block (its closing delimiter is found at row 3)
then grows the deletion set by 1 row, not 2. -/
theorem C2_counterexample :
    find_end_tag c2Sheet 0 "/jx:forEach".toList = some 3 ∧
    find_end_tag c2Sheet 1 "/jx:forEach".toList = some 3 ∧
    (processCmds c2Sheet initRwState
      ((detect_jxls_commands c2Sheet).take 1)).rowsToDelete.card = 2 ∧
    (processCmds c2Sheet initRwState (detect_jxls_commands c2Sheet)).rowsToDelete.card = 3 := by
  decide

/-- C2 (amended): for a block directive whose closing delimiter is found,
the opening row and the closing row are both put into the deletion set
(so at most 2 rows are added, and exactly 2 when neither was already
marked — overlapping blocks may share rows and add fewer); the queued
comment's row equals the data row minus the count of rows already marked
strictly above it; and that adjusted index strictly decreases as more
rows above are marked. -/
theorem C2_block_deletion (s : Sheet) (st : RwState) (loc : CommandLocation)
    (raw : Str) (e : Nat) :
    (find_end_tag s loc.row "/jx:forEach".toList = some e →
      (processCmd s st (.forEachCmd loc raw)).rowsToDelete =
        insert e (insert loc.row st.rowsToDelete) ∧
      (processCmd s st (.forEachCmd loc raw)).rowsToDelete.card ≤
        st.rowsToDelete.card + 2 ∧
      (loc.row ∉ st.rowsToDelete → e ∉ st.rowsToDelete → e ≠ loc.row →
        (processCmd s st (.forEachCmd loc raw)).rowsToDelete.card =
          st.rowsToDelete.card + 2) ∧
      (processCmd s st (.forEachCmd loc raw)).comments =
        st.comments ++
          [(adjustedRow (loc.row + 1) (insert e (insert loc.row st.rowsToDelete)),
            (find_first_data_column s (loc.row + 1)).getD loc.col,
            to_jx_each (forEachParse raw)
              (colLetter (find_last_data_column s (loc.row + 1) + 1) ++
                natToStr
                  (adjustedRow (loc.row + 1) (insert e (insert loc.row st.rowsToDelete)) +
                    1)))]) ∧
    (find_end_tag s loc.row "/jx:if".toList = some e →
      (processCmd s st (.ifCmd loc raw)).rowsToDelete =
        insert e (insert loc.row st.rowsToDelete) ∧
      (processCmd s st (.ifCmd loc raw)).rowsToDelete.card ≤
        st.rowsToDelete.card + 2 ∧
      (loc.row ∉ st.rowsToDelete → e ∉ st.rowsToDelete → e ≠ loc.row →
        (processCmd s st (.ifCmd loc raw)).rowsToDelete.card =
          st.rowsToDelete.card + 2) ∧
      (processCmd s st (.ifCmd loc raw)).comments =
        st.comments ++
          [(adjustedRow (loc.row + 1) (insert e (insert loc.row st.rowsToDelete)),
            (find_first_data_column s (loc.row + 1)).getD loc.col,
            to_jx_if_v2 (ifParse raw)
              (colLetter (find_last_data_column s (loc.row + 1) + 1) ++
                natToStr
                  (adjustedRow (loc.row + 1) (insert e (insert loc.row st.rowsToDelete)) +
                    1)))]) ∧
    (∀ (row : Nat) (S T : Finset Nat), S ⊆ T → ∀ r, r ∈ T → r ∉ S → r < row →
      adjustedRow row T < adjustedRow row S) := by
  refine ⟨fun he => ?_, fun he => ?_, adjustedRow_strict_anti⟩
  · simp only [processCmd, he]
    refine ⟨trivial, ?_, fun h1 h2 h3 => ?_, trivial⟩
    · exact le_trans (Finset.card_insert_le _ _)
        (Nat.succ_le_succ (Finset.card_insert_le _ _))
    · rw [Finset.card_insert_of_not_mem (by simp [Finset.mem_insert, h2, h3]),
        Finset.card_insert_of_not_mem h1]
  · simp only [processCmd, he]
    refine ⟨trivial, ?_, fun h1 h2 h3 => ?_, trivial⟩
    · exact le_trans (Finset.card_insert_le _ _)
        (Nat.succ_le_succ (Finset.card_insert_le _ _))
    · rw [Finset.card_insert_of_not_mem (by simp [Finset.mem_insert, h2, h3]),
        Finset.card_insert_of_not_mem h1]

/-- Witness for C2 at the first block of the shared-delimiter sheet: the
closing delimiter is at row 3 and processing it marks exactly rows 0 and 3. -/
theorem C2_block_deletion_witness :
    find_end_tag c2Sheet 0 "/jx:forEach".toList = some 3 ∧
    (processCmd c2Sheet initRwState
        (.forEachCmd ⟨0, 0⟩ "<jx:forEach items=\"a\" var=\"x\">".toList)).rowsToDelete =
      insert 3 (insert 0 initRwState.rowsToDelete) :=
  ⟨by decide,
    ((C2_block_deletion c2Sheet initRwState ⟨0, 0⟩
      "<jx:forEach items=\"a\" var=\"x\">".toList 3).1 (by decide)).1⟩

/-- One command-loop step never removes rows from the deletion set. -/
theorem processCmd_delete_subset (s : Sheet) (st : RwState) (c : JxlsCommand) :
    st.rowsToDelete ⊆ (processCmd s st c).rowsToDelete := by
  cases c with
  | forEachCmd loc raw =>
    cases hfe : find_end_tag s loc.row "/jx:forEach".toList with
    | none =>
      simp only [processCmd, hfe]
      exact fun x hx => hx
    | some e =>
      simp only [processCmd, hfe]
      exact fun x hx => Finset.mem_insert_of_mem (Finset.mem_insert_of_mem hx)
  | ifCmd loc raw =>
    cases hfe : find_end_tag s loc.row "/jx:if".toList with
    | none =>
      simp only [processCmd, hfe]
      exact fun x hx => hx
    | some e =>
      simp only [processCmd, hfe]
      exact fun x hx => Finset.mem_insert_of_mem (Finset.mem_insert_of_mem hx)
  | areaCmd loc raw => simp [processCmd]
  | multiSheetCmd loc raw =>
    simp only [processCmd]
    exact fun x hx => Finset.mem_insert_of_mem hx
  | outCmd loc raw => simp [processCmd]

/-- The command loop only grows the deletion set. -/
theorem processCmds_delete_subset (s : Sheet) (st : RwState) (l : List JxlsCommand) :
    st.rowsToDelete ⊆ (processCmds s st l).rowsToDelete := by
  induction l generalizing st with
  | nil => exact fun x hx => hx
  | cons c cs ih =>
    intro x hx
    exact ih (processCmd s st c) (processCmd_delete_subset s st c hx)

/-- Splitting the command loop at one command. -/
theorem processCmds_append_cons (s : Sheet) (st : RwState) (l₁ l₂ : List JxlsCommand)
    (c : JxlsCommand) :
    processCmds s st (l₁ ++ c :: l₂) =
      processCmds s (processCmd s (processCmds s st l₁) c) l₂ := by
  simp [processCmds, List.foldl_append]

/-- C6: for a block directive occurring anywhere in the command list,
if its closing delimiter is not found the directive's step is the
identity (the whole-sheet processing is as if the directive were absent,
and in particular it marks nothing and raises nothing); if the closing
delimiter is found, both the opening row and the closing row are in the
final deletion set. -/
theorem C6_block_pairing (s : Sheet) (st : RwState) (l₁ l₂ : List JxlsCommand)
    (loc : CommandLocation) (raw : Str) :
    (find_end_tag s loc.row "/jx:forEach".toList = none →
      processCmds s st (l₁ ++ JxlsCommand.forEachCmd loc raw :: l₂) =
        processCmds s st (l₁ ++ l₂)) ∧
    (∀ e, find_end_tag s loc.row "/jx:forEach".toList = some e →
      loc.row ∈ (processCmds s st
          (l₁ ++ JxlsCommand.forEachCmd loc raw :: l₂)).rowsToDelete ∧
      e ∈ (processCmds s st
          (l₁ ++ JxlsCommand.forEachCmd loc raw :: l₂)).rowsToDelete) ∧
    (find_end_tag s loc.row "/jx:if".toList = none →
      processCmds s st (l₁ ++ JxlsCommand.ifCmd loc raw :: l₂) =
        processCmds s st (l₁ ++ l₂)) ∧
    (∀ e, find_end_tag s loc.row "/jx:if".toList = some e →
      loc.row ∈ (processCmds s st
          (l₁ ++ JxlsCommand.ifCmd loc raw :: l₂)).rowsToDelete ∧
      e ∈ (processCmds s st
          (l₁ ++ JxlsCommand.ifCmd loc raw :: l₂)).rowsToDelete) := by
  refine ⟨fun h => ?_, fun e he => ?_, fun h => ?_, fun e he => ?_⟩
  · rw [processCmds_append_cons]
    have hid : processCmd s (processCmds s st l₁) (JxlsCommand.forEachCmd loc raw) =
        processCmds s st l₁ := by
      simp only [processCmd, h]
    rw [hid]
    simp only [processCmds]
    rw [List.foldl_append]
  · rw [processCmds_append_cons]
    refine ⟨processCmds_delete_subset s _ l₂ ?_, processCmds_delete_subset s _ l₂ ?_⟩
    · simp only [processCmd, he]
      exact Finset.mem_insert_of_mem (Finset.mem_insert_self _ _)
    · simp only [processCmd, he]
      exact Finset.mem_insert_self _ _
  · rw [processCmds_append_cons]
    have hid : processCmd s (processCmds s st l₁) (JxlsCommand.ifCmd loc raw) =
        processCmds s st l₁ := by
      simp only [processCmd, h]
    rw [hid]
    simp only [processCmds]
    rw [List.foldl_append]
  · rw [processCmds_append_cons]
    refine ⟨processCmds_delete_subset s _ l₂ ?_, processCmds_delete_subset s _ l₂ ?_⟩
    · simp only [processCmd, he]
      exact Finset.mem_insert_of_mem (Finset.mem_insert_self _ _)
    · simp only [processCmd, he]
      exact Finset.mem_insert_self _ _

/-- Witness for C6: a matched block (rows 0 and 2 end in the final set)
and an unmatched block (processing with the dangling opener equals
processing without it). -/
theorem C6_block_pairing_witness :
    (0 ∈ (processCmds c3Sheet initRwState
        ([] ++ JxlsCommand.forEachCmd ⟨0, 0⟩ "<jx:forEach items=\"a\" var=\"x\">".toList
          :: [])).rowsToDelete ∧
      2 ∈ (processCmds c3Sheet initRwState
        ([] ++ JxlsCommand.forEachCmd ⟨0, 0⟩ "<jx:forEach items=\"a\" var=\"x\">".toList
          :: [])).rowsToDelete) ∧
    processCmds c6Sheet initRwState
        ([] ++ JxlsCommand.forEachCmd ⟨0, 0⟩ "<jx:forEach items=\"a\" var=\"x\">".toList
          :: []) =
      processCmds c6Sheet initRwState ([] ++ []) :=
  ⟨(C6_block_pairing c3Sheet initRwState [] [] ⟨0, 0⟩
      "<jx:forEach items=\"a\" var=\"x\">".toList).2.1 2 (by decide),
   (C6_block_pairing c6Sheet initRwState [] [] ⟨0, 0⟩
      "<jx:forEach items=\"a\" var=\"x\">".toList).1 (by decide)⟩

/-- On a fully empty row the first-data-column scan reports the `-1`
sentinel (`none`). -/
theorem find_first_none (s : Sheet) (row : Nat)
    (h : ∀ c, c < s.ncols → cellVal s row c = []) :
    find_first_data_column s row = none := by
  unfold find_first_data_column
  rw [List.find?_eq_none]
  intro c hc
  have hcv := h c (List.mem_range.1 hc)
  simp [hcv]

/-- On a fully empty row the last-data-column scan returns its initial
accumulator `0`. -/
theorem find_last_zero (s : Sheet) (row : Nat)
    (h : ∀ c, c < s.ncols → cellVal s row c = []) :
    find_last_data_column s row = 0 := by
  unfold find_last_data_column
  have haux : ∀ (l : List Nat) (acc : Nat), (∀ c ∈ l, cellVal s row c = []) →
      l.foldl (fun acc c => if cellVal s row c ≠ [] then c else acc) acc = acc := by
    intro l
    induction l with
    | nil => intro acc _; rfl
    | cons c cs ih =>
      intro acc hall
      simp only [List.foldl_cons]
      rw [if_neg (by rw [hall c (List.mem_cons_self c cs)]; simp)]
      exact ih acc fun x hx => hall x (List.mem_cons_of_mem _ hx)
  exact haux _ 0 fun c hc => h c (List.mem_range.1 hc)

/-- C9 counterexample: a forEach opener in column C with an empty data row
emits `lastCell` in column A (the rightmost scan falls back to column 0,
not to the directive's own column), while the comment anchor does fall
back to the directive's column 2. -/
theorem C9_counterexample :
    (processCmds c9Sheet initRwState (detect_jxls_commands c9Sheet)).comments =
      [(0, 2, "jx:each(items=\"a\" var=\"x\" lastCell=\"A1\")".toList)] ∧
    ¬ containsSub "jx:each(items=\"a\" var=\"x\" lastCell=\"A1\")".toList
        "lastCell=\"C".toList := by
  decide

/-- C9 (amended): on an empty data row neither scan raises; the
leftmost-column scan reports its sentinel and the queued annotation's
anchor falls back to the directive's own column, while the
rightmost-column scan falls back to column index 0 (column A), which is
the column rendered into the emitted `lastCell`. -/
theorem C9_empty_data_row (s : Sheet) (st : RwState) (loc : CommandLocation)
    (raw : Str) (e : Nat)
    (hempty : ∀ c, c < s.ncols → cellVal s (loc.row + 1) c = []) :
    find_first_data_column s (loc.row + 1) = none ∧
    find_last_data_column s (loc.row + 1) = 0 ∧
    (find_end_tag s loc.row "/jx:forEach".toList = some e →
      (processCmd s st (.forEachCmd loc raw)).comments =
        st.comments ++
          [(adjustedRow (loc.row + 1) (insert e (insert loc.row st.rowsToDelete)),
            loc.col,
            to_jx_each (forEachParse raw)
              (colLetter 1 ++
                natToStr (adjustedRow (loc.row + 1)
                  (insert e (insert loc.row st.rowsToDelete)) + 1)))]) ∧
    (find_end_tag s loc.row "/jx:if".toList = some e →
      (processCmd s st (.ifCmd loc raw)).comments =
        st.comments ++
          [(adjustedRow (loc.row + 1) (insert e (insert loc.row st.rowsToDelete)),
            loc.col,
            to_jx_if_v2 (ifParse raw)
              (colLetter 1 ++
                natToStr (adjustedRow (loc.row + 1)
                  (insert e (insert loc.row st.rowsToDelete)) + 1)))]) := by
  have h1 := find_first_none s (loc.row + 1) hempty
  have h2 := find_last_zero s (loc.row + 1) hempty
  refine ⟨h1, h2, fun he => ?_, fun he => ?_⟩
  · simp only [processCmd, he, h1, h2, Option.getD_none]
  · simp only [processCmd, he, h1, h2, Option.getD_none]

/-- Witness for C9 at the concrete empty-data-row sheet. -/
theorem C9_empty_data_row_witness :
    find_first_data_column c9Sheet 1 = none ∧
    find_last_data_column c9Sheet 1 = 0 :=
  ⟨(C9_empty_data_row c9Sheet initRwState ⟨0, 2⟩
      "<jx:forEach items=\"a\" var=\"x\">".toList 2 (by decide)).1,
   (C9_empty_data_row c9Sheet initRwState ⟨0, 2⟩
      "<jx:forEach items=\"a\" var=\"x\">".toList 2 (by decide)).2.1⟩

/-- The conditional-max fold never goes below its accumulator. -/
theorem foldl_max_mono (p : Nat → Bool) :
    ∀ (l : List Nat) (acc : Nat),
      acc ≤ l.foldl (fun a c => if p c then max a c else a) acc := by
  intro l
  induction l with
  | nil => intro acc; exact le_refl _
  | cons c cs ih =>
    intro acc
    simp only [List.foldl_cons]
    by_cases hp : p c
    · rw [if_pos hp]
      exact le_trans (Nat.le_max_left _ _) (ih _)
    · rw [if_neg hp]
      exact ih acc

/-- Every qualifying element is bounded by the conditional-max fold. -/
theorem foldl_max_ge (p : Nat → Bool) :
    ∀ (l : List Nat) (acc : Nat) (c : Nat), c ∈ l → p c = true →
      c ≤ l.foldl (fun a c => if p c then max a c else a) acc := by
  intro l
  induction l with
  | nil => intro acc c hc; exact absurd hc (List.not_mem_nil c)
  | cons d ds ih =>
    intro acc c hc hp
    simp only [List.foldl_cons]
    rcases List.mem_cons.1 hc with rfl | hmem
    · rw [if_pos hp]
      exact le_trans (Nat.le_max_right _ _) (foldl_max_mono p ds _)
    · by_cases hd : p d
      · rw [if_pos hd]
        exact ih _ c hmem hp
      · rw [if_neg hd]
        exact ih _ c hmem hp

/-- The conditional-max fold is its accumulator or a qualifying element. -/
theorem foldl_max_cases (p : Nat → Bool) :
    ∀ (l : List Nat) (acc : Nat),
      l.foldl (fun a c => if p c then max a c else a) acc = acc ∨
      ∃ c ∈ l, p c = true ∧ l.foldl (fun a c => if p c then max a c else a) acc = c := by
  intro l
  induction l with
  | nil => intro acc; exact Or.inl rfl
  | cons d ds ih =>
    intro acc
    simp only [List.foldl_cons]
    by_cases hd : p d
    · rw [if_pos hd]
      rcases ih (max acc d) with h | ⟨c, hc, hpc, heq⟩
      · rcases Nat.le_total acc d with hle | hle
        · exact Or.inr ⟨d, List.mem_cons_self d ds, hd, by rw [h, Nat.max_eq_right hle]⟩
        · exact Or.inl (by rw [h, Nat.max_eq_left hle])
      · exact Or.inr ⟨c, List.mem_cons_of_mem _ hc, hpc, heq⟩
    · rw [if_neg hd]
      rcases ih acc with h | ⟨c, hc, hpc, heq⟩
      · exact Or.inl h
      · exact Or.inr ⟨c, List.mem_cons_of_mem _ hc, hpc, heq⟩

/-- C3 counterexample: a sheet whose kept data lies entirely in column A
undergoes a deletion (the forEach block is matched, rows 0 and 2 are
marked) yet no Area annotation is synthesized: the final comment list is
only the forEach comment. -/
theorem C3_counterexample :
    (processCmds c3Sheet initRwState (detect_jxls_commands c3Sheet)).rowsToDelete ≠ ∅ ∧
    (processCmds c3Sheet initRwState (detect_jxls_commands c3Sheet)).areaCommands = [] ∧
    (process_commands_and_migrate_data (detect_jxls_commands c3Sheet) c3Sheet).comments =
      [(0, 0, "jx:each(items=\"a\" var=\"x\" lastCell=\"A1\")".toList)] := by
  decide

/-- C3 (amended): when no Area directive was recorded and some row was
marked or some annotation queued, and additionally at least one row is
kept and the rightmost kept populated column index is positive, exactly
one synthesized Area annotation is appended, at row 0 column 0, whose
`lastCell` is built from the rightmost populated column across kept rows
(the fold result is a populated kept column bounding all others) and the
bottom-most kept row of the output; when the kept data sits entirely in
column index 0 (or nothing is kept), no Area annotation is synthesized. -/
theorem C3_auto_area (cmds : List JxlsCommand) (s : Sheet)
    (harea : (processCmds s initRwState cmds).areaCommands = [])
    (hact : (processCmds s initRwState cmds).rowsToDelete ≠ ∅ ∨
      (processCmds s initRwState cmds).comments ≠ [])
    (hkept : 0 < (keptRows s (processCmds s initRwState cmds).rowsToDelete).length)
    (hcol : 0 < autoAreaLastCol s (processCmds s initRwState cmds).rowsToDelete) :
    (process_commands_and_migrate_data cmds s).comments =
      (processCmds s initRwState cmds).comments ++
        [(0, 0, "jx:area(lastCell=\"".toList ++
            colLetter (autoAreaLastCol s (processCmds s initRwState cmds).rowsToDelete + 1)
            ++ natToStr (keptRows s (processCmds s initRwState cmds).rowsToDelete).length
            ++ "\")".toList)] ∧
    (∃ r, r < s.nrows ∧ r ∉ (processCmds s initRwState cmds).rowsToDelete ∧
      cellVal s r (autoAreaLastCol s (processCmds s initRwState cmds).rowsToDelete) ≠ []) ∧
    (∀ c, c < s.ncols →
      (∃ r, r < s.nrows ∧ r ∉ (processCmds s initRwState cmds).rowsToDelete ∧
        cellVal s r c ≠ []) →
      c ≤ autoAreaLastCol s (processCmds s initRwState cmds).rowsToDelete) ∧
    (keptRows s (processCmds s initRwState cmds).rowsToDelete).length =
      (process_commands_and_migrate_data cmds s).newRows.length := by
  refine ⟨?_, ?_, ?_, ?_⟩
  · simp only [process_commands_and_migrate_data]
    rw [if_pos ⟨harea, hact⟩, if_pos ⟨hkept, hcol⟩]
  · rcases foldl_max_cases _ (List.range s.ncols) 0 with h | ⟨c, _, hpc, heq⟩
    · rw [autoAreaLastCol] at hcol
      rw [h] at hcol
      exact absurd hcol (by simp)
    · have hres : autoAreaLastCol s (processCmds s initRwState cmds).rowsToDelete = c := heq
      rw [hres]
      rcases List.any_eq_true.1 hpc with ⟨r, hr, hrp⟩
      have hrp' := Bool.and_eq_true_iff.1 hrp
      exact ⟨r, List.mem_range.1 hr, of_decide_eq_true hrp'.1, of_decide_eq_true hrp'.2⟩
  · intro c hc ⟨r, hr, hrd, hrv⟩
    refine foldl_max_ge _ (List.range s.ncols) 0 c (List.mem_range.2 hc) ?_
    exact List.any_eq_true.2 ⟨r, List.mem_range.2 hr, by simp [hrd, hrv]⟩
  · simp only [process_commands_and_migrate_data, copyRows]
    rw [List.length_map]

/-- Witness for C3 at the two-column scenario sheet: all hypotheses hold
and the kept-row count matches the output row count. -/
theorem C3_auto_area_witness :
    (processCmds c1Sheet initRwState (detect_jxls_commands c1Sheet)).areaCommands = [] ∧
    (keptRows c1Sheet
        (processCmds c1Sheet initRwState (detect_jxls_commands c1Sheet)).rowsToDelete).length =
      (process_commands_and_migrate_data (detect_jxls_commands c1Sheet) c1Sheet).newRows.length :=
  ⟨by decide,
    (C3_auto_area (detect_jxls_commands c1Sheet) c1Sheet (by decide)
      (Or.inl (by decide)) (by decide) (by decide)).2.2.2⟩

/-- A substitution pass whose matcher fires on no suffix is the identity. -/
theorem reSubAux_id (m : Str → Option (Str × Str)) (rep : Str → Str) :
    ∀ (v : Str) (fuel : Nat), (∀ suf, suf <:+ v → m suf = none) →
      reSubAux m rep fuel v = v := by
  intro v
  induction v with
  | nil => intro fuel _; cases fuel <;> rfl
  | cons c cs ih =>
    intro fuel h
    cases fuel with
    | zero => rfl
    | succ f =>
      have h0 := h (c :: cs) (List.suffix_refl _)
      simp only [reSubAux, h0]
      rw [ih f fun suf hs => h suf (hs.trans (List.suffix_cons c cs))]

/-- A successful case-sensitive literal eat certifies the literal as a
prefix. -/
theorem eatLit_prefixOf : ∀ (lit s r : Str), eatLit lit s = some r → lit <+: s := by
  intro lit
  induction lit with
  | nil => intro s r _; exact List.nil_prefix
  | cons c cs ih =>
    intro s r h
    cases s with
    | nil => exact absurd h (by simp [eatLit])
    | cons d ds =>
      simp only [eatLit] at h
      by_cases hc : c = d
      · rw [if_pos hc] at h
        obtain ⟨t, ht⟩ := ih ds r h
        exact ⟨t, by rw [List.cons_append, ht, hc]⟩
      · rw [if_neg hc] at h
        exact absurd h (by simp)

/-- A successful copy-pass substitution match starts with the literal
`<jx:out`. -/
theorem outSubAt_prefixOf (s : Str) (r : Str × Str) (h : outSubAt s = some r) :
    "<jx:out".toList <+: s := by
  cases he : eatLit "<jx:out".toList s with
  | none =>
    unfold outSubAt at h
    rw [he] at h
    exact absurd h (by simp)
  | some s1 => exact eatLit_prefixOf _ _ _ he

/-- An occurrence headed by a non-whitespace character survives
`dropWhile`. -/
theorem infix_dropWhile (p : Char → Bool) (c : Char) (ms v : Str)
    (hc : p c = false) (h : (c :: ms) <:+: v) : (c :: ms) <:+: v.dropWhile p := by
  obtain ⟨s, t, hst⟩ := h
  have hv : v = s ++ ((c :: ms) ++ t) := by rw [← hst, List.append_assoc]
  rw [hv, List.dropWhile_append]
  split
  · rw [List.cons_append, List.dropWhile_cons_of_neg (by simp [hc])]
    exact ⟨[], t, by simp⟩
  · exact ⟨s.dropWhile p, t, by rw [List.append_assoc]⟩

/-- An occurrence of `<jx:out` survives Python `strip` (both its first
and its last character are non-whitespace). -/
theorem outLit_infix_pyStrip (v : Str) (h : "<jx:out".toList <:+: v) :
    "<jx:out".toList <:+: pyStrip v := by
  have h0 : ('<' :: "jx:out".toList) <:+: v := by
    rwa [show ('<' :: "jx:out".toList) = "<jx:out".toList by decide]
  have h1 := infix_dropWhile isPySpace '<' "jx:out".toList v (by decide) h0
  have h2 := List.IsInfix.reverse h1
  rw [show (('<' :: "jx:out".toList).reverse) = ('t' :: "uo:xj<".toList) by decide] at h2
  have h3 := infix_dropWhile isPySpace 't' "uo:xj<".toList _ (by decide) h2
  have h4 := List.IsInfix.reverse h3
  rw [show (('t' :: "uo:xj<".toList).reverse) = "<jx:out".toList by decide] at h4
  simpa [pyStrip] using h4

/-- A cell the scanner classified as no directive contains no `<jx:out`
signature. -/
theorem classify_none_no_out (loc : CommandLocation) (w : Str)
    (h : classifyCell loc w = none) :
    ¬ containsSub (lowerStr w) "<jx:out".toList := by
  intro hc
  simp only [classifyCell] at h
  split_ifs at h with h1 h2 h3 h4 h5
  exact h5 (Or.inl hc)

/-- On a sheet the scanner found empty, every populated in-range cell
classifies as no directive. -/
theorem detect_nil_classify (s : Sheet) (h : detect_jxls_commands s = [])
    (r c : Nat) (hr : r < s.nrows) (hc : c < s.ncols) (hv : cellVal s r c ≠ []) :
    classifyCell ⟨r, c⟩ (pyStrip (cellVal s r c)) = none := by
  unfold detect_jxls_commands at h
  rw [List.filterMap_eq_nil_iff] at h
  have hmem : (r, c) ∈ (List.range s.nrows).flatMap
      fun r => (List.range s.ncols).map fun c => (r, c) := by
    refine List.mem_flatMap.2 ⟨r, List.mem_range.2 hr, ?_⟩
    exact List.mem_map.2 ⟨c, List.mem_range.2 hc, rfl⟩
  have hcell := h _ hmem
  rw [if_neg hv] at hcell
  exact hcell

/-- C4: rewriting a sheet in which the scanner found zero directives is
the identity transform: the output grid is exactly the input grid (cell
values unchanged, row count and column count preserved) and no annotation
is queued. -/
theorem C4_zero_directives_identity (s : Sheet)
    (h : detect_jxls_commands s = []) :
    (process_commands_and_migrate_data (detect_jxls_commands s) s).newRows =
      (List.range s.nrows).map (fun r => (List.range s.ncols).map fun c => cellVal s r c) ∧
    (process_commands_and_migrate_data (detect_jxls_commands s) s).newRows.length =
      s.nrows ∧
    (∀ row ∈ (process_commands_and_migrate_data (detect_jxls_commands s) s).newRows,
      row.length = s.ncols) ∧
    (process_commands_and_migrate_data (detect_jxls_commands s) s).comments = [] := by
  have hst : processCmds s initRwState (detect_jxls_commands s) = initRwState := by
    rw [h]
    rfl
  have hcell : ∀ r c, r < s.nrows → c < s.ncols →
      jxOutSub (cellVal s r c) = cellVal s r c := by
    intro r c hr hc
    by_cases hv : cellVal s r c = []
    · rw [hv]
      rfl
    · have hcl := detect_nil_classify s h r c hr hc hv
      have hnoc := classify_none_no_out _ _ hcl
      have hnoinf : ¬ ("<jx:out".toList <:+: cellVal s r c) := by
        intro hinf
        apply hnoc
        have h1 := outLit_infix_pyStrip _ hinf
        have h2 := List.IsInfix.map Char.toLower h1
        rw [show (("<jx:out".toList).map Char.toLower) = "<jx:out".toList by decide] at h2
        exact h2
      unfold jxOutSub reSub
      apply reSubAux_id
      intro suf hsuf
      cases hms : outSubAt suf with
      | none => rfl
      | some rr =>
        have hs1 : "<jx:out".toList <:+: suf :=
          List.IsPrefix.isInfix (outSubAt_prefixOf suf rr hms)
        have hs2 : suf <:+: cellVal s r c := List.IsSuffix.isInfix hsuf
        have hs3 := List.IsInfix.trans hs1 hs2
        exact absurd hs3 hnoinf
  have hrows : (process_commands_and_migrate_data (detect_jxls_commands s) s).newRows =
      (List.range s.nrows).map fun r => (List.range s.ncols).map fun c => cellVal s r c := by
    simp only [process_commands_and_migrate_data, copyRows, keptRows, hst]
    have hfil : (List.range s.nrows).filter
        (fun r => decide (r ∉ initRwState.rowsToDelete)) = List.range s.nrows := by
      refine List.filter_eq_self.2 fun r _ => ?_
      simp [initRwState]
    rw [hfil]
    refine List.map_congr_left fun r hr => ?_
    refine List.map_congr_left fun c hc => ?_
    exact hcell r c (List.mem_range.1 hr) (List.mem_range.1 hc)
  refine ⟨hrows, ?_, ?_, ?_⟩
  · rw [hrows, List.length_map, List.length_range]
  · intro row hrow
    rw [hrows] at hrow
    obtain ⟨r, _, hrw⟩ := List.mem_map.1 hrow
    rw [← hrw, List.length_map, List.length_range]
  · simp only [process_commands_and_migrate_data, hst]
    rw [if_neg]
    · rfl
    · intro hcon
      rcases hcon.2 with hbad | hbad
      · exact hbad rfl
      · exact hbad rfl

/-- Witness for C4 at a concrete directive-free sheet. -/
theorem C4_zero_directives_identity_witness :
    detect_jxls_commands c4Sheet = [] ∧
    (process_commands_and_migrate_data (detect_jxls_commands c4Sheet) c4Sheet).newRows =
      (List.range c4Sheet.nrows).map
        (fun r => (List.range c4Sheet.ncols).map fun c => cellVal c4Sheet r c) :=
  ⟨by decide, (C4_zero_directives_identity c4Sheet (by decide)).1⟩

/-- The last element of a list extended by a singleton. -/
theorem getLast?_append_singleton (l : List Char) (a : Char) :
    (l ++ [a]).getLast? = some a := by
  induction l with
  | nil => rfl
  | cons c cs ih =>
    rw [List.cons_append, List.getLast?_cons, ih]
    rfl

/-- Rendered `jx:each` text opens with the call syntax head. -/
theorem to_jx_each_take8 (p : ForEachParams) (lc : Str) :
    (to_jx_each p lc).take 8 = "jx:each(".toList := by
  simp [to_jx_each, List.append_assoc]

/-- Rendered `jx:each` text closes with `)`. -/
theorem to_jx_each_last (p : ForEachParams) (lc : Str) :
    (to_jx_each p lc).getLast? = some ')' := by
  unfold to_jx_each
  exact getLast?_append_singleton _ _

/-- Rendered `jx:each` text carries the `items` parameter. -/
theorem to_jx_each_has_items (p : ForEachParams) (lc : Str) :
    containsSub (to_jx_each p lc) ("items=\"".toList ++ p.items.getD [] ++ "\"".toList) := by
  refine ⟨"jx:each(".toList,
    " var=\"".toList ++ p.var.getD [] ++ "\" lastCell=\"".toList ++ lc ++ "\"".toList
      ++ optRender "direction" p.direction ++ optRender "multisheet" p.multisheet
      ++ optRender "select" p.select ++ optRender "groupBy" p.groupBy
      ++ optRender "groupOrder" p.groupOrder
      ++ (match p.varStatus with
          | some _ => " # 注意: varStatus需要在Java代码中手动实现".toList
          | none => [])
      ++ [')'], ?_⟩
  simp [to_jx_each, List.append_assoc]

/-- Rendered `jx:each` text carries the `var` parameter. -/
theorem to_jx_each_has_var (p : ForEachParams) (lc : Str) :
    containsSub (to_jx_each p lc) ("var=\"".toList ++ p.var.getD [] ++ "\"".toList) := by
  refine ⟨"jx:each(items=\"".toList ++ p.items.getD [] ++ "\" ".toList,
    " lastCell=\"".toList ++ lc ++ "\"".toList
      ++ optRender "direction" p.direction ++ optRender "multisheet" p.multisheet
      ++ optRender "select" p.select ++ optRender "groupBy" p.groupBy
      ++ optRender "groupOrder" p.groupOrder
      ++ (match p.varStatus with
          | some _ => " # 注意: varStatus需要在Java代码中手动实现".toList
          | none => [])
      ++ [')'], ?_⟩
  simp [to_jx_each, List.append_assoc]

/-- Rendered `jx:each` text carries the `lastCell` parameter. -/
theorem to_jx_each_has_lastCell (p : ForEachParams) (lc : Str) :
    containsSub (to_jx_each p lc) ("lastCell=\"".toList ++ lc ++ "\"".toList) := by
  refine ⟨"jx:each(items=\"".toList ++ p.items.getD [] ++ "\" var=\"".toList
      ++ p.var.getD [] ++ "\" ".toList,
    optRender "direction" p.direction ++ optRender "multisheet" p.multisheet
      ++ optRender "select" p.select ++ optRender "groupBy" p.groupBy
      ++ optRender "groupOrder" p.groupOrder
      ++ (match p.varStatus with
          | some _ => " # 注意: varStatus需要在Java代码中手动实现".toList
          | none => [])
      ++ [')'], ?_⟩
  simp [to_jx_each, List.append_assoc]

/-- Rendered `jx:each` text carries a present `direction` verbatim. -/
theorem to_jx_each_has_direction (p : ForEachParams) (lc w : Str)
    (hw : p.direction = some w) :
    containsSub (to_jx_each p lc) (" direction=\"".toList ++ w ++ "\"".toList) := by
  refine ⟨"jx:each(items=\"".toList ++ p.items.getD [] ++ "\" var=\"".toList
      ++ p.var.getD [] ++ "\" lastCell=\"".toList ++ lc ++ "\"".toList,
    optRender "multisheet" p.multisheet
      ++ optRender "select" p.select ++ optRender "groupBy" p.groupBy
      ++ optRender "groupOrder" p.groupOrder
      ++ (match p.varStatus with
          | some _ => " # 注意: varStatus需要在Java代码中手动实现".toList
          | none => [])
      ++ [')'], ?_⟩
  simp [to_jx_each, optRender, hw, List.append_assoc]

/-- Rendered `jx:each` text carries a present `multisheet` verbatim. -/
theorem to_jx_each_has_multisheet (p : ForEachParams) (lc w : Str)
    (hw : p.multisheet = some w) :
    containsSub (to_jx_each p lc) (" multisheet=\"".toList ++ w ++ "\"".toList) := by
  refine ⟨"jx:each(items=\"".toList ++ p.items.getD [] ++ "\" var=\"".toList
      ++ p.var.getD [] ++ "\" lastCell=\"".toList ++ lc ++ "\"".toList
      ++ optRender "direction" p.direction,
    optRender "select" p.select ++ optRender "groupBy" p.groupBy
      ++ optRender "groupOrder" p.groupOrder
      ++ (match p.varStatus with
          | some _ => " # 注意: varStatus需要在Java代码中手动实现".toList
          | none => [])
      ++ [')'], ?_⟩
  simp [to_jx_each, optRender, hw, List.append_assoc]

/-- Rendered `jx:each` text carries a present `select` verbatim. -/
theorem to_jx_each_has_select (p : ForEachParams) (lc w : Str)
    (hw : p.select = some w) :
    containsSub (to_jx_each p lc) (" select=\"".toList ++ w ++ "\"".toList) := by
  refine ⟨"jx:each(items=\"".toList ++ p.items.getD [] ++ "\" var=\"".toList
      ++ p.var.getD [] ++ "\" lastCell=\"".toList ++ lc ++ "\"".toList
      ++ optRender "direction" p.direction ++ optRender "multisheet" p.multisheet,
    optRender "groupBy" p.groupBy ++ optRender "groupOrder" p.groupOrder
      ++ (match p.varStatus with
          | some _ => " # 注意: varStatus需要在Java代码中手动实现".toList
          | none => [])
      ++ [')'], ?_⟩
  simp [to_jx_each, optRender, hw, List.append_assoc]

/-- Rendered `jx:each` text carries a present `groupBy` verbatim. -/
theorem to_jx_each_has_groupBy (p : ForEachParams) (lc w : Str)
    (hw : p.groupBy = some w) :
    containsSub (to_jx_each p lc) (" groupBy=\"".toList ++ w ++ "\"".toList) := by
  refine ⟨"jx:each(items=\"".toList ++ p.items.getD [] ++ "\" var=\"".toList
      ++ p.var.getD [] ++ "\" lastCell=\"".toList ++ lc ++ "\"".toList
      ++ optRender "direction" p.direction ++ optRender "multisheet" p.multisheet
      ++ optRender "select" p.select,
    optRender "groupOrder" p.groupOrder
      ++ (match p.varStatus with
          | some _ => " # 注意: varStatus需要在Java代码中手动实现".toList
          | none => [])
      ++ [')'], ?_⟩
  simp [to_jx_each, optRender, hw, List.append_assoc]

/-- Rendered `jx:each` text carries a present `groupOrder` verbatim. -/
theorem to_jx_each_has_groupOrder (p : ForEachParams) (lc w : Str)
    (hw : p.groupOrder = some w) :
    containsSub (to_jx_each p lc) (" groupOrder=\"".toList ++ w ++ "\"".toList) := by
  refine ⟨"jx:each(items=\"".toList ++ p.items.getD [] ++ "\" var=\"".toList
      ++ p.var.getD [] ++ "\" lastCell=\"".toList ++ lc ++ "\"".toList
      ++ optRender "direction" p.direction ++ optRender "multisheet" p.multisheet
      ++ optRender "select" p.select ++ optRender "groupBy" p.groupBy,
    (match p.varStatus with
        | some _ => " # 注意: varStatus需要在Java代码中手动实现".toList
        | none => [])
      ++ [')'], ?_⟩
  simp [to_jx_each, optRender, hw, List.append_assoc]

/-- Rendered `jx:each` text carries the caution comment when a legacy
`varStatus` parameter was present. -/
theorem to_jx_each_has_varStatus_note (p : ForEachParams) (lc w : Str)
    (hw : p.varStatus = some w) :
    containsSub (to_jx_each p lc)
      " # 注意: varStatus需要在Java代码中手动实现".toList := by
  refine ⟨"jx:each(items=\"".toList ++ p.items.getD [] ++ "\" var=\"".toList
      ++ p.var.getD [] ++ "\" lastCell=\"".toList ++ lc ++ "\"".toList
      ++ optRender "direction" p.direction ++ optRender "multisheet" p.multisheet
      ++ optRender "select" p.select ++ optRender "groupBy" p.groupBy
      ++ optRender "groupOrder" p.groupOrder,
    [')'], ?_⟩
  simp [to_jx_each, hw, List.append_assoc]

/-- Rendered `jx:if` text carries the `condition` parameter. -/
theorem to_jx_if_v2_has_condition (p : IfParams) (lc : Str) :
    containsSub (to_jx_if_v2 p lc)
      ("condition=\"".toList ++ p.condition.getD [] ++ "\"".toList) := by
  refine ⟨"jx:if(".toList,
    " lastCell=\"".toList ++ lc ++ "\"".toList
      ++ optRender "direction" p.direction ++ optRender "multisheet" p.multisheet
      ++ optRender "areas" p.areas ++ [')'], ?_⟩
  simp [to_jx_if_v2, List.append_assoc]

/-- C5: for every forEach raw text whose base signature matches, parsing
captures `items` and `var` with `${...}` braces stripped and each
optional parameter verbatim, and rendering produces call-syntax output
(`jx:each(` head, `)` tail) containing every captured parameter — with
`varStatus` replaced by the caution comment — while for the other block
directive kind (`jx:if`) the condition parameter is captured and rendered
verbatim, interpolation markers included. -/
theorem C5_parse_render (raw i v : Str)
    (hm : forEachBaseMatch (cleanTag (pyStrip raw)) = some (i, v)) :
    (forEachParse raw).items = some (stripDollar i) ∧
    (forEachParse raw).var = some (stripDollar v) ∧
    (forEachParse raw).varStatus = findOptParam "varStatus" (cleanTag (pyStrip raw)) ∧
    (forEachParse raw).direction = findOptParam "direction" (cleanTag (pyStrip raw)) ∧
    (forEachParse raw).multisheet = findOptParam "multisheet" (cleanTag (pyStrip raw)) ∧
    (forEachParse raw).select = findOptParam "select" (cleanTag (pyStrip raw)) ∧
    (forEachParse raw).groupBy = findOptParam "groupBy" (cleanTag (pyStrip raw)) ∧
    (forEachParse raw).groupOrder = findOptParam "groupOrder" (cleanTag (pyStrip raw)) ∧
    (∀ lc : Str,
      (to_jx_each (forEachParse raw) lc).take 8 = "jx:each(".toList ∧
      (to_jx_each (forEachParse raw) lc).getLast? = some ')' ∧
      containsSub (to_jx_each (forEachParse raw) lc)
        ("items=\"".toList ++ stripDollar i ++ "\"".toList) ∧
      containsSub (to_jx_each (forEachParse raw) lc)
        ("var=\"".toList ++ stripDollar v ++ "\"".toList) ∧
      containsSub (to_jx_each (forEachParse raw) lc)
        ("lastCell=\"".toList ++ lc ++ "\"".toList) ∧
      (∀ w, (forEachParse raw).direction = some w →
        containsSub (to_jx_each (forEachParse raw) lc)
          (" direction=\"".toList ++ w ++ "\"".toList)) ∧
      (∀ w, (forEachParse raw).multisheet = some w →
        containsSub (to_jx_each (forEachParse raw) lc)
          (" multisheet=\"".toList ++ w ++ "\"".toList)) ∧
      (∀ w, (forEachParse raw).select = some w →
        containsSub (to_jx_each (forEachParse raw) lc)
          (" select=\"".toList ++ w ++ "\"".toList)) ∧
      (∀ w, (forEachParse raw).groupBy = some w →
        containsSub (to_jx_each (forEachParse raw) lc)
          (" groupBy=\"".toList ++ w ++ "\"".toList)) ∧
      (∀ w, (forEachParse raw).groupOrder = some w →
        containsSub (to_jx_each (forEachParse raw) lc)
          (" groupOrder=\"".toList ++ w ++ "\"".toList)) ∧
      (∀ w, (forEachParse raw).varStatus = some w →
        containsSub (to_jx_each (forEachParse raw) lc)
          " # 注意: varStatus需要在Java代码中手动实现".toList)) ∧
    (∀ raw2 c : Str, ifBaseMatch (cleanTag (pyStrip raw2)) = some c →
      (ifParse raw2).condition = some c ∧
      ∀ lc, containsSub (to_jx_if_v2 (ifParse raw2) lc)
        ("condition=\"".toList ++ c ++ "\"".toList)) := by
  have hitems : (forEachParse raw).items = some (stripDollar i) := by
    simp [forEachParse, hm]
  have hvar : (forEachParse raw).var = some (stripDollar v) := by
    simp [forEachParse, hm]
  refine ⟨hitems, hvar, rfl, rfl, rfl, rfl, rfl, rfl, fun lc => ?_, fun raw2 c hc => ?_⟩
  · refine ⟨to_jx_each_take8 _ _, to_jx_each_last _ _, ?_, ?_,
      to_jx_each_has_lastCell _ _,
      fun w hw => to_jx_each_has_direction _ _ _ hw,
      fun w hw => to_jx_each_has_multisheet _ _ _ hw,
      fun w hw => to_jx_each_has_select _ _ _ hw,
      fun w hw => to_jx_each_has_groupBy _ _ _ hw,
      fun w hw => to_jx_each_has_groupOrder _ _ _ hw,
      fun w hw => to_jx_each_has_varStatus_note _ _ _ hw⟩
    · have hx := to_jx_each_has_items (forEachParse raw) lc
      rw [hitems] at hx
      simpa using hx
    · have hx := to_jx_each_has_var (forEachParse raw) lc
      rw [hvar] at hx
      simpa using hx
  · have hcond : (ifParse raw2).condition = some c := by
      simp [ifParse, hc]
    refine ⟨hcond, fun lc => ?_⟩
    have hx := to_jx_if_v2_has_condition (ifParse raw2) lc
    rw [hcond] at hx
    simpa using hx

/-- Witness for C5 at a concrete forEach raw text with interpolated
`items`, a `direction` parameter, and a `varStatus` parameter. -/
theorem C5_parse_render_witness :
    forEachBaseMatch (cleanTag (pyStrip
      "<jx:forEach items=\"${list}\" var=\"item\" direction=\"DOWN\" varStatus=\"st\">".toList)) =
      some ("${list}".toList, "item".toList) ∧
    (forEachParse
      "<jx:forEach items=\"${list}\" var=\"item\" direction=\"DOWN\" varStatus=\"st\">".toList).items =
      some (stripDollar "${list}".toList) :=
  ⟨by decide,
    (C5_parse_render
      "<jx:forEach items=\"${list}\" var=\"item\" direction=\"DOWN\" varStatus=\"st\">".toList
      "${list}".toList "item".toList (by decide)).1⟩
